import Mathlib

/-
A verification development for the resilient data-access layer
(`src/db/manager.py` together with the constants in `src/core/config.py`).

The Python class `DatabaseManager` is embedded as a pure state machine:
its mutable attributes become the fields of `ManagerState`, each method
becomes a function from a state (plus the oracles describing the outside
world: does the primary backend answer, does the SQLite file exist, which
thread is calling) to a result together with the successor state.  Side
observations that the claims talk about — how often the reconnect lock is
taken, how many connection attempts are made, which delays are slept —
are returned explicitly in the result records.

Connections and clients are identified by natural numbers drawn from a
fresh-id counter `nextConnId`; Python object identity becomes equality of
these identifiers.
-/

namespace DBMgr

/-- Values from `src/core/config.py` (lines 13–18). -/
def SQLITE_DB : String := "ecommerce.db"

/-- `CH_MAX_RETRIES = 3` in `src/core/config.py`. -/
def CH_MAX_RETRIES : Nat := 3

/-- `CH_RETRY_BASE_DELAY = 1.0` in `src/core/config.py`. -/
def CH_RETRY_BASE_DELAY : ℚ := 1

/-- `CH_RETRY_BACKOFF = 2.0` in `src/core/config.py`. -/
def CH_RETRY_BACKOFF : ℚ := 2

/-- The backend tag stored in `self._backend_type` (a Python string,
`"clickhouse"` or `"sqlite"`; `None` before first decision). -/
inductive Backend where
  | clickhouse : Backend
  | sqlite : Backend
deriving DecidableEq, Repr

/-- A Python value as stored in `self._date_range_cache`: either `None`
or a tuple (modelled as a list of strings).  Python truthiness of these
values drives the cache-hit test on line 77 of `manager.py`. -/
inductive PyVal where
  | pyNone : PyVal
  | tup : List String → PyVal
deriving DecidableEq, Repr

/-- Python truthiness: `None` and the empty tuple are falsy, a non-empty
tuple is truthy. -/
def PyVal.truthy : PyVal → Bool
  | .pyNone => false
  | .tup xs => !xs.isEmpty

/-- The error raised by `_get_sqlite_conn` when the SQLite file is
missing (line 126 of `manager.py`; the spec calls it `BackendUnavailable`). -/
inductive DBError where
  | backendUnavailable : DBError
deriving DecidableEq, Repr

/-- The mutable attributes of the `DatabaseManager` singleton
(`__init__`, lines 53–69 of `manager.py`).  Connection and client
objects are identified by `Nat` ids issued from `nextConnId`; the set of
ids whose `close()` has been called is tracked in `closedConns` so that
claims about "never closes the connection" can be stated. -/
@[ext]
structure ManagerState where
  /-- `self._thread_local.sqlite_conn`, per thread id. -/
  threadLocal : Nat → Option Nat
  /-- `self._sqlite_conns` (tracked for bulk close). -/
  sqliteConns : List Nat
  /-- `self._ch_client`. -/
  chClient : Option Nat
  /-- `self._ch_available` (`none` = unknown). -/
  chAvailable : Option Bool
  /-- `self._backend_type`. -/
  backendType : Option Backend
  /-- `self._date_range_cache`. -/
  dateRangeCache : PyVal
  /-- `self._date_range_ts`. -/
  dateRangeTs : ℚ
  /-- `self._date_range_ttl`. -/
  dateRangeTtl : ℚ
  /-- `self._initialized`. -/
  initialized : Bool
  /-- Fresh-id source for connection objects (model artefact). -/
  nextConnId : Nat
  /-- Ids of connections that have been closed (model artefact). -/
  closedConns : List Nat

/-- The state produced by `__init__` (lines 53–69). -/
def initState : ManagerState where
  threadLocal := fun _ => none
  sqliteConns := []
  chClient := none
  chAvailable := none
  backendType := none
  dateRangeCache := .pyNone
  dateRangeTs := 0
  dateRangeTtl := 60
  initialized := true
  nextConnId := 0
  closedConns := []

/-- Result of `get_date_range_cached`: the returned value (or the
propagated exception of the fetch function), the successor state, and how
many times the fetch function was invoked during the call. -/
structure CacheResult where
  result : Except Unit PyVal
  state : ManagerState
  fetchCalls : Nat

/-- `get_date_range_cached` (lines 71–82).  `now` is the value of
`time.time()`; the fetch function applied to its arguments is modelled by
its outcome `fetch` (`.error ()` when it raises). -/
def get_date_range_cached (s : ManagerState) (now : ℚ)
    (fetch : Except Unit PyVal) : CacheResult :=
  if s.dateRangeCache.truthy = true ∧ now - s.dateRangeTs < s.dateRangeTtl then
    ⟨.ok s.dateRangeCache, s, 0⟩
  else
    match fetch with
    | .error e => ⟨.error e, s, 1⟩
    | .ok v => ⟨.ok v, { s with dateRangeCache := v, dateRangeTs := now }, 1⟩

/-- Result of the reconnect routine: the returned boolean, the successor
state, the list of slept delays in order, and the number of connection
attempts performed. -/
structure RetryResult where
  ok : Bool
  state : ManagerState
  sleeps : List ℚ
  attempts : Nat

/-- The `for attempt in range(1, CH_MAX_RETRIES + 1)` loop of
`_try_clickhouse_with_retry` (lines 90–110), with `fuel` remaining
iterations, `attempt` the current 1-based index and `delay` the current
backoff delay.  `attemptOk j` tells whether the `j`-th attempt to open a
client and heartbeat it succeeds.  On success a fresh client id is cached
(lines 98–102); when the loop exhausts, lines 112–114 run. -/
def chRetryLoop (attemptOk : Nat → Bool) (backoff : ℚ) (s : ManagerState) :
    Nat → Nat → ℚ → RetryResult
  | 0, attempt, _ =>
      ⟨false, { s with chAvailable := some false }, [], attempt - 1⟩
  | fuel + 1, attempt, delay =>
      if attemptOk attempt then
        ⟨true,
         { s with chClient := some s.nextConnId
                  nextConnId := s.nextConnId + 1
                  chAvailable := some true
                  backendType := some .clickhouse },
         [], attempt⟩
      else
        if fuel = 0 then
          chRetryLoop attemptOk backoff s 0 (attempt + 1) delay
        else
          let r := chRetryLoop attemptOk backoff s fuel (attempt + 1) (delay * backoff)
          ⟨r.ok, r.state, delay :: r.sleeps, r.attempts⟩

/-- `_try_clickhouse_with_retry` generalised over the three configuration
constants it reads (`CH_MAX_RETRIES`, `CH_RETRY_BASE_DELAY`,
`CH_RETRY_BACKOFF`). -/
def tryClickhouseWithRetry (attemptOk : Nat → Bool) (maxRetries : Nat)
    (baseDelay backoff : ℚ) (s : ManagerState) : RetryResult :=
  chRetryLoop attemptOk backoff s maxRetries 1 baseDelay

/-- `_try_clickhouse_with_retry` (lines 84–114) with the configured
constants, exactly as the source reads them. -/
def tryClickhouseWithRetryCfg (attemptOk : Nat → Bool) (s : ManagerState) :
    RetryResult :=
  tryClickhouseWithRetry attemptOk CH_MAX_RETRIES CH_RETRY_BASE_DELAY
    CH_RETRY_BACKOFF s

/-- Result of `_get_sqlite_conn`: the connection id (or the raised
error) and the successor state. -/
structure ConnResult where
  result : Except DBError Nat
  state : ManagerState

/-- `_get_sqlite_conn` (lines 116–141).  `fileExists` models
`os.path.exists(SQLITE_DB)`; `tid` is the calling thread.  A cached
per-thread connection is returned as is; otherwise a missing file raises,
else a fresh connection is created, cached in the thread-local slot,
appended to the tracked list, and the backend tag is set to sqlite. -/
def _get_sqlite_conn (fileExists : Bool) (tid : Nat) (s : ManagerState) :
    ConnResult :=
  match s.threadLocal tid with
  | some c => ⟨.ok c, s⟩
  | none =>
    if fileExists = false then
      ⟨.error .backendUnavailable, s⟩
    else
      let c := s.nextConnId
      let s1 := { s with
        threadLocal := fun t => if t = tid then some c else s.threadLocal t
        nextConnId := c + 1
        sqliteConns := s.sqliteConns ++ [c] }
      let s2 :=
        if s1.backendType ≠ some .sqlite then
          { s1 with backendType := some .sqlite }
        else s1
      ⟨.ok c, s2⟩

/-- Result of `get_connection`: the returned pair
`(connection_or_client, is_sqlite)` (or the propagated
`BackendUnavailable` error), the successor state, how many times
`self._ch_lock` was acquired during the call, how many ClickHouse
connection attempts were performed, and the delays slept. -/
structure GCResult where
  result : Except DBError (Nat × Bool)
  state : ManagerState
  lockAcquisitions : Nat
  chAttempts : Nat
  sleeps : List ℚ

/-- Lines 162–170 of `get_connection`: the first-probe/retry block and
the SQLite fallback, entered with `locks` lock acquisitions already
recorded by the heartbeat block. -/
def getConnectionTail (attemptOk : Nat → Bool) (fileExists : Bool)
    (tid : Nat) (s : ManagerState) (locks : Nat) : GCResult :=
  if s.chAvailable = none then
    -- `with self._ch_lock:` then the double check of line 165
    if s.chAvailable = none then
      let r := tryClickhouseWithRetryCfg attemptOk s
      if r.ok then
        ⟨.ok (r.state.chClient.getD 0, false), r.state, locks + 1,
         r.attempts, r.sleeps⟩
      else
        let q := _get_sqlite_conn fileExists tid r.state
        ⟨q.result.map (fun c => (c, true)), q.state, locks + 1,
         r.attempts, r.sleeps⟩
    else
      let q := _get_sqlite_conn fileExists tid s
      ⟨q.result.map (fun c => (c, true)), q.state, locks + 1, 0, []⟩
  else
    let q := _get_sqlite_conn fileExists tid s
    ⟨q.result.map (fun c => (c, true)), q.state, locks, 0, []⟩

/-- `get_connection` (lines 143–170).  `heartbeatOk` models whether
`self._ch_client.query("SELECT 1")` on the cached client succeeds;
`attemptOk` feeds the retry loop; `fileExists` and `tid` are passed to
the SQLite fallback. -/
def get_connection (heartbeatOk : Bool) (attemptOk : Nat → Bool)
    (fileExists : Bool) (tid : Nat) (s : ManagerState) : GCResult :=
  if s.chAvailable = some true ∧ s.chClient ≠ none then
    if heartbeatOk then
      ⟨.ok (s.chClient.getD 0, false), s, 0, 0, []⟩
    else
      -- `with self._ch_lock:` then the double check of line 158
      let s1 :=
        if s.chAvailable = some true then
          { s with chClient := none, chAvailable := none }
        else s
      getConnectionTail attemptOk fileExists tid s1 1
  else
    getConnectionTail attemptOk fileExists tid s 0

/-- Result of `get_sqlite_cursor`: the outer error is a failure of
`_get_sqlite_conn`; on success the inner value is the outcome of the
`with` body (`.error ()` when the body raises).  `cursorClosed` records
whether the cursor obtained from the connection was closed. -/
structure CursorResult where
  result : Except DBError (Except Unit Unit)
  state : ManagerState
  cursorClosed : Bool

/-- `get_sqlite_cursor` (lines 172–183): obtain the per-thread
connection, open a cursor, run the body (which may raise), and close the
cursor in the `finally` block on every exit path. -/
def get_sqlite_cursor (fileExists : Bool) (tid : Nat) (bodyFails : Bool)
    (s : ManagerState) : CursorResult :=
  match _get_sqlite_conn fileExists tid s with
  | ⟨.error e, s1⟩ => ⟨.error e, s1, false⟩
  | ⟨.ok _, s1⟩ =>
      ⟨.ok (if bodyFails then .error () else .ok ()), s1, true⟩

/-- `close_all` (lines 185–207): close every tracked SQLite connection
(ignoring individual close errors), clear the tracked list, close the
ClickHouse client if present, reset availability and the initialized
flag. -/
def close_all (s : ManagerState) : ManagerState :=
  let s1 := { s with closedConns := s.closedConns ++ s.sqliteConns
                     sqliteConns := [] }
  let s2 :=
    match s1.chClient with
    | some c => { s1 with closedConns := s1.closedConns ++ [c]
                          chClient := none }
    | none => s1
  { s2 with chAvailable := none, initialized := false }

/-- The arguments of one `get_connection` call, used to iterate calls. -/
structure GCCall where
  hb : Bool
  aok : Nat → Bool
  fe : Bool
  tid : Nat

/-- The state after a sequence of `get_connection` calls. -/
def runGC (s : ManagerState) : List GCCall → ManagerState
  | [] => s
  | c :: rest => runGC (get_connection c.hb c.aok c.fe c.tid s).state rest

/-- Freshness and ownership invariant on connection ids: every id cached
in a thread-local slot or as the ClickHouse client is below the fresh-id
counter, and no two distinct threads share a slot id. -/
def GoodIds (s : ManagerState) : Prop :=
  (∀ t c, s.threadLocal t = some c → c < s.nextConnId) ∧
  (∀ t t' c, s.threadLocal t = some c → s.threadLocal t' = some c → t = t') ∧
  (∀ c, s.chClient = some c → c < s.nextConnId)

/-
Interleaved execution of `get_connection` on a cold manager.

For the concurrency claim the cold path of `get_connection`
(lines 162–170) is modelled as an explicit transition system over `n`
threads.  Every thread starts just before the `if self._ch_available is
None:` test of line 163, having already fallen through the heartbeat
block (the state is cold, `_ch_available` is `None`).  The whole retry
sequence of `_try_clickhouse_with_retry` is one atomic step taken while
holding `_ch_lock`; its outcome is the parameter `outcome`.
-/

/-- Program counter of one thread in the cold `get_connection` path:
`start` = about to test `_ch_available is None` (line 163); `acquire` =
about to enter `with self._ch_lock` (line 164); `check` = holding the
lock, about to run the double check (line 165); `attempt` = holding the
lock, about to run the retry sequence (line 166); `finished b` = the call
returned, with the primary client iff `b = true`. -/
inductive PC where
  | start : PC
  | acquire : PC
  | check : PC
  | attempt : PC
  | finished : Bool → PC
deriving DecidableEq, Repr

/-- Shared state of the interleaved system: the `_ch_available` flag,
the holder of `_ch_lock`, each thread's program counter, and how many
times the retry sequence has been executed. -/
structure Sys (n : Nat) where
  avail : Option Bool
  lock : Option (Fin n)
  pcs : Fin n → PC
  attemptsRun : Nat

/-- Initial cold system: availability unknown, lock free, every thread
about to test availability. -/
def sysInit (n : Nat) : Sys n :=
  ⟨none, none, fun _ => .start, 0⟩

/-- One small step of thread `i`.  `none` means thread `i` cannot move:
it is finished, or it is blocked waiting for `_ch_lock`. -/
def threadStep (outcome : Bool) (s : Sys n) (i : Fin n) : Option (Sys n) :=
  match s.pcs i with
  | .start =>
      match s.avail with
      | none => some { s with pcs := Function.update s.pcs i .acquire }
      | some _ =>
          -- line 163 test fails: fall through to the SQLite fallback
          some { s with pcs := Function.update s.pcs i (.finished false) }
  | .acquire =>
      match s.lock with
      | none => some { s with lock := some i
                              pcs := Function.update s.pcs i .check }
      | some _ => none
  | .check =>
      if s.lock = some i then
        match s.avail with
        | none => some { s with pcs := Function.update s.pcs i .attempt }
        | some _ =>
            -- double check fails: release the lock, fall back
            some { s with lock := none
                          pcs := Function.update s.pcs i (.finished false) }
      else none
  | .attempt =>
      if s.lock = some i then
        some { s with avail := some outcome
                      attemptsRun := s.attemptsRun + 1
                      lock := none
                      pcs := Function.update s.pcs i (.finished outcome) }
      else none
  | .finished _ => none

/-- Run a schedule: at each entry the named thread takes its step if it
can, and is skipped if it is blocked or finished. -/
def sysRun (outcome : Bool) (s : Sys n) : List (Fin n) → Sys n
  | [] => s
  | i :: rest => sysRun outcome ((threadStep outcome s i).getD s) rest

/-- Thread `i` is blocked on `_ch_lock`: it wants to enter the `with`
block but another thread holds the lock. -/
def Blocked (s : Sys n) (i : Fin n) : Prop :=
  s.pcs i = .acquire ∧ s.lock ≠ none ∧ s.lock ≠ some i

instance (s : Sys n) (i : Fin n) : Decidable (Blocked s i) := by
  unfold Blocked; infer_instance

/-- Inductive invariant of the interleaved cold-start system: the lock
holder is exactly the thread inside the `with` block; a thread at the
retry step implies availability is still unknown; availability is
decided exactly when a retry has run; the retry sequence runs at most
once; no thread finishes before a retry has run; and at most one thread
finishes with the primary client. -/
def SysInv (s : Sys n) : Prop :=
  (∀ i, s.lock = some i → (s.pcs i = .check ∨ s.pcs i = .attempt)) ∧
  (∀ i, (s.pcs i = .check ∨ s.pcs i = .attempt) → s.lock = some i) ∧
  ((∃ i, s.pcs i = .attempt) → s.avail = none) ∧
  (s.avail = none ↔ s.attemptsRun = 0) ∧
  s.attemptsRun ≤ 1 ∧
  (s.attemptsRun = 0 → ∀ i b, s.pcs i ≠ .finished b) ∧
  (∀ i j, s.pcs i = .finished true → s.pcs j = .finished true → i = j)

/-- A manager state whose primary backend is available with cached
client id 0 (used to instantiate theorems at a concrete input). -/
def availState : ManagerState :=
  { initState with chAvailable := some true, chClient := some 0,
                   nextConnId := 1 }

/-- A manager state carrying a thread-local connection, a tracked
connection, a primary client and a populated date-range cache (used to
instantiate theorems at a concrete input). -/
def dirtyState : ManagerState :=
  { initState with
      threadLocal := fun t => if t = 0 then some 0 else none
      sqliteConns := [0]
      chClient := some 1
      chAvailable := some true
      backendType := some .clickhouse
      dateRangeCache := .tup ["2017-11-01", "2017-12-10"]
      dateRangeTs := 5
      nextConnId := 2 }

/-
Helper lemmas about the retry loop.
-/

/-- Prepending the first delay to a geometric tail gives the geometric
sequence one element longer. -/
theorem geomSleeps (delay backoff : ℚ) (m : Nat) :
    delay :: (List.range m).map (fun i => delay * backoff * backoff ^ i) =
      (List.range (m + 1)).map (fun i => delay * backoff ^ i) := by
  rw [List.range_succ_eq_map, List.map_cons, List.map_map]
  congr 1
  · simp
  · refine List.map_congr_left fun a _ => ?_
    simp [Function.comp, pow_succ]
    ring

/-- When every attempt fails, the retry loop with `fuel + 1` iterations
left performs all of them, sleeps the geometric delays between
consecutive attempts (none after the last), marks the backend
unavailable and returns false. -/
theorem chRetryLoop_allFail (attemptOk : Nat → Bool) (backoff : ℚ)
    (s : ManagerState) (hfail : ∀ j, attemptOk j = false) :
    ∀ (fuel attempt : Nat) (delay : ℚ),
      chRetryLoop attemptOk backoff s (fuel + 1) attempt delay =
        ⟨false, { s with chAvailable := some false },
         (List.range fuel).map (fun i => delay * backoff ^ i),
         attempt + fuel⟩ := by
  intro fuel
  induction fuel with
  | zero =>
      intro attempt delay
      simp [chRetryLoop, hfail]
  | succ m ih =>
      intro attempt delay
      simp only [chRetryLoop, hfail, Bool.false_eq_true, if_false,
        Nat.succ_ne_zero, ih (attempt + 1) (delay * backoff)]
      refine congrArg₂ (fun a b => RetryResult.mk false
        { s with chAvailable := some false } a b) ?_ (by omega)
      exact geomSleeps delay backoff m

/-- C1, general form: when every attempt fails and `maxRetries ≥ 1`, the
reconnect routine performs exactly `maxRetries` attempts, sleeps
`baseDelay * backoff ^ (k - 1)` after the `k`-th failure for every
`k < maxRetries` (and nothing after the last attempt), returns false and
only marks availability as false. -/
theorem tryRetry_allFail (attemptOk : Nat → Bool) (maxRetries : Nat)
    (baseDelay backoff : ℚ) (s : ManagerState)
    (hmax : 1 ≤ maxRetries) (hfail : ∀ j, attemptOk j = false) :
    (tryClickhouseWithRetry attemptOk maxRetries baseDelay backoff s).attempts
        = maxRetries ∧
    (tryClickhouseWithRetry attemptOk maxRetries baseDelay backoff s).sleeps
        = (List.range (maxRetries - 1)).map (fun i => baseDelay * backoff ^ i) ∧
    (tryClickhouseWithRetry attemptOk maxRetries baseDelay backoff s).ok
        = false ∧
    (tryClickhouseWithRetry attemptOk maxRetries baseDelay backoff s).state
        = { s with chAvailable := some false } := by
  obtain ⟨m, rfl⟩ : ∃ m, maxRetries = m + 1 :=
    ⟨maxRetries - 1, (Nat.succ_pred_eq_of_pos hmax).symm⟩
  rw [tryClickhouseWithRetry, chRetryLoop_allFail attemptOk backoff s hfail m 1 baseDelay]
  refine ⟨?_, ?_, rfl, rfl⟩
  · show 1 + m = m + 1
    omega
  · show (List.range m).map (fun i => baseDelay * backoff ^ i)
        = (List.range (m + 1 - 1)).map (fun i => baseDelay * backoff ^ i)
    simp

/-- Witness for C1 at the configured defaults (3 attempts, base delay 1,
multiplier 2, starting from the freshly initialised manager): the slept
delays are exactly 1 then 2, total 3, three attempts are made, the
routine returns false and availability becomes unavailable. -/
theorem tryRetry_allFail_witness :
    1 ≤ CH_MAX_RETRIES ∧
    (tryClickhouseWithRetryCfg (fun _ => false) initState).attempts = 3 ∧
    (tryClickhouseWithRetryCfg (fun _ => false) initState).sleeps = [1, 2] ∧
    ((tryClickhouseWithRetryCfg (fun _ => false) initState).sleeps).sum = 3 ∧
    (tryClickhouseWithRetryCfg (fun _ => false) initState).ok = false ∧
    (tryClickhouseWithRetryCfg (fun _ => false) initState).state.chAvailable
      = some false := by
  obtain ⟨h1, h2, h3, h4⟩ := tryRetry_allFail (fun _ => false) CH_MAX_RETRIES
    CH_RETRY_BASE_DELAY CH_RETRY_BACKOFF initState (by decide) (fun _ => rfl)
  refine ⟨by decide, h1, ?_, ?_, h3, ?_⟩
  · rw [tryClickhouseWithRetryCfg, h2]
    norm_num [CH_MAX_RETRIES, CH_RETRY_BASE_DELAY, CH_RETRY_BACKOFF,
      List.range_succ]
  · rw [tryClickhouseWithRetryCfg, h2]
    norm_num [CH_MAX_RETRIES, CH_RETRY_BASE_DELAY, CH_RETRY_BACKOFF,
      List.range_succ]
  · rw [tryClickhouseWithRetryCfg, h4]

/-
Helper lemmas about the SQLite fallback.
-/

/-- `_get_sqlite_conn` never touches the ClickHouse fields, the
derived-value cache, or the closed-connection record, and never reuses
an old id. -/
theorem sqliteConnFrame (fe : Bool) (tid : Nat) (s : ManagerState) :
    (_get_sqlite_conn fe tid s).state.chClient = s.chClient ∧
    (_get_sqlite_conn fe tid s).state.chAvailable = s.chAvailable ∧
    (_get_sqlite_conn fe tid s).state.dateRangeCache = s.dateRangeCache ∧
    (_get_sqlite_conn fe tid s).state.dateRangeTs = s.dateRangeTs ∧
    (_get_sqlite_conn fe tid s).state.closedConns = s.closedConns ∧
    s.nextConnId ≤ (_get_sqlite_conn fe tid s).state.nextConnId := by
  cases hslot : s.threadLocal tid with
  | some c => simp [_get_sqlite_conn, hslot]
  | none =>
      cases fe with
      | false => simp [_get_sqlite_conn, hslot]
      | true =>
          by_cases hbt : s.backendType = some Backend.sqlite <;>
            simp [_get_sqlite_conn, hslot, hbt]

/-- With the SQLite file present, `_get_sqlite_conn` succeeds: it
returns the cached per-thread connection if there is one, and a fresh id
otherwise. -/
theorem sqliteConnOk (tid : Nat) (s : ManagerState) :
    (_get_sqlite_conn true tid s).result =
      .ok ((s.threadLocal tid).getD s.nextConnId) := by
  cases hslot : s.threadLocal tid with
  | some c => simp [_get_sqlite_conn, hslot]
  | none =>
      by_cases hbt : s.backendType = some Backend.sqlite <;>
        simp [_get_sqlite_conn, hslot, hbt]

/-- One `get_connection` call on an unavailable manager: no lock, no
attempt, no sleep, availability still unavailable, and (when the SQLite
file is present) a fallback pair is returned. -/
theorem gcUnavailableStep (s : ManagerState) (h : s.chAvailable = some false)
    (hb : Bool) (aok : Nat → Bool) (fe : Bool) (tid : Nat) :
    (get_connection hb aok fe tid s).lockAcquisitions = 0 ∧
    (get_connection hb aok fe tid s).chAttempts = 0 ∧
    (get_connection hb aok fe tid s).sleeps = [] ∧
    (get_connection hb aok fe tid s).state.chAvailable = some false ∧
    (fe = true →
      (get_connection hb aok fe tid s).result =
        .ok ((s.threadLocal tid).getD s.nextConnId, true)) := by
  have hgc : get_connection hb aok fe tid s =
      ⟨(_get_sqlite_conn fe tid s).result.map (fun c => (c, true)),
       (_get_sqlite_conn fe tid s).state, 0, 0, []⟩ := by
    simp [get_connection, getConnectionTail, h]
  rw [hgc]
  refine ⟨rfl, rfl, rfl, ?_, ?_⟩
  · rw [(sqliteConnFrame fe tid s).2.1, h]
  · rintro rfl
    rw [sqliteConnOk tid s]
    rfl

/-- Availability stays unavailable across any sequence of
`get_connection` calls. -/
theorem runGCUnavailable (calls : List GCCall) :
    ∀ s : ManagerState, s.chAvailable = some false →
      (runGC s calls).chAvailable = some false := by
  induction calls with
  | nil => intro s h; exact h
  | cons c rest ih =>
      intro s h
      exact ih _ ((gcUnavailableStep s h c.hb c.aok c.fe c.tid).2.2.2.1)

/-- C2: once availability is `Unavailable`, every subsequent
`get_connection` call returns the SQLite fallback immediately — the
reconnect lock is never acquired, no attempt is made against the primary
backend, nothing is slept — and availability remains `Unavailable`
across any further sequence of calls until `close_all` resets it to
unknown. -/
theorem unavailableTerminal (s : ManagerState)
    (h : s.chAvailable = some false) :
    (∀ (hb : Bool) (aok : Nat → Bool) (fe : Bool) (tid : Nat),
       (get_connection hb aok fe tid s).lockAcquisitions = 0 ∧
       (get_connection hb aok fe tid s).chAttempts = 0 ∧
       (get_connection hb aok fe tid s).sleeps = [] ∧
       (get_connection hb aok fe tid s).state.chAvailable = some false ∧
       (fe = true →
         (get_connection hb aok fe tid s).result =
           .ok ((s.threadLocal tid).getD s.nextConnId, true))) ∧
    (∀ calls : List GCCall, (runGC s calls).chAvailable = some false) ∧
    (close_all s).chAvailable = none := by
  exact ⟨fun hb aok fe tid => gcUnavailableStep s h hb aok fe tid,
    fun calls => runGCUnavailable calls s h, rfl⟩

/-- Witness for C2: on a freshly initialised manager marked unavailable,
a call takes no lock, makes no attempt, returns the fallback connection
`(0, true)`, and availability is still unavailable after two further
calls and becomes unknown only after `close_all`. -/
theorem unavailableTerminal_witness :
    ({ initState with chAvailable := some false } : ManagerState).chAvailable
        = some false ∧
    (get_connection true (fun _ => true) true 0
        { initState with chAvailable := some false }).lockAcquisitions = 0 ∧
    (get_connection true (fun _ => true) true 0
        { initState with chAvailable := some false }).chAttempts = 0 ∧
    (get_connection true (fun _ => true) true 0
        { initState with chAvailable := some false }).result = .ok (0, true) ∧
    (runGC { initState with chAvailable := some false }
        [⟨true, fun _ => true, true, 0⟩,
         ⟨false, fun _ => false, true, 1⟩]).chAvailable = some false ∧
    (close_all { initState with chAvailable := some false }).chAvailable
        = none := by
  obtain ⟨h1, h2, h3⟩ :=
    unavailableTerminal { initState with chAvailable := some false } rfl
  obtain ⟨ha, hb, hc, hd, he⟩ := h1 true (fun _ => true) true 0
  exact ⟨rfl, ha, hb, he rfl,
    h2 [⟨true, fun _ => true, true, 0⟩, ⟨false, fun _ => false, true, 1⟩], h3⟩

/-- The retry routine either fails every attempt — returning false and
only marking availability as false — or succeeds — caching a fresh
client id, bumping the counter, marking availability true and the
backend tag clickhouse. -/
theorem chRetryLoop_cases (attemptOk : Nat → Bool) (backoff : ℚ)
    (s : ManagerState) :
    ∀ (fuel attempt : Nat) (delay : ℚ),
      ((chRetryLoop attemptOk backoff s fuel attempt delay).ok = false ∧
       (chRetryLoop attemptOk backoff s fuel attempt delay).state =
         { s with chAvailable := some false }) ∨
      ((chRetryLoop attemptOk backoff s fuel attempt delay).ok = true ∧
       (chRetryLoop attemptOk backoff s fuel attempt delay).state =
         { s with chClient := some s.nextConnId
                  nextConnId := s.nextConnId + 1
                  chAvailable := some true
                  backendType := some .clickhouse }) := by
  intro fuel
  induction fuel with
  | zero =>
      intro attempt delay
      left
      exact ⟨by simp [chRetryLoop], by simp [chRetryLoop]⟩
  | succ m ih =>
      intro attempt delay
      by_cases hok : attemptOk attempt
      · right
        simp [chRetryLoop, hok]
      · rcases Nat.eq_zero_or_pos m with hm | hm
        · subst hm
          left
          simp [chRetryLoop, hok]
        · obtain ⟨k, rfl⟩ : ∃ k, m = k + 1 := ⟨m - 1, by omega⟩
          have h := ih (attempt + 1) (delay * backoff)
          simpa [chRetryLoop, hok] using h

/-- `tryClickhouseWithRetryCfg` case analysis, specialised from the loop
lemma. -/
theorem tryRetryCfg_cases (aok : Nat → Bool) (s : ManagerState) :
    ((tryClickhouseWithRetryCfg aok s).ok = false ∧
     (tryClickhouseWithRetryCfg aok s).state =
       { s with chAvailable := some false }) ∨
    ((tryClickhouseWithRetryCfg aok s).ok = true ∧
     (tryClickhouseWithRetryCfg aok s).state =
       { s with chClient := some s.nextConnId
                nextConnId := s.nextConnId + 1
                chAvailable := some true
                backendType := some .clickhouse }) :=
  chRetryLoop_cases aok CH_RETRY_BACKOFF s CH_MAX_RETRIES 1 CH_RETRY_BASE_DELAY

/-- On an unknown-availability state, `getConnectionTail` acquires the
lock once, runs the retry routine, and either returns the cached fresh
client or falls back to SQLite. -/
theorem getConnectionTail_unknown (aok : Nat → Bool) (fe : Bool)
    (tid : Nat) (s : ManagerState) (locks : Nat)
    (h : s.chAvailable = none) :
    getConnectionTail aok fe tid s locks =
      if (tryClickhouseWithRetryCfg aok s).ok then
        ⟨.ok ((tryClickhouseWithRetryCfg aok s).state.chClient.getD 0, false),
         (tryClickhouseWithRetryCfg aok s).state, locks + 1,
         (tryClickhouseWithRetryCfg aok s).attempts,
         (tryClickhouseWithRetryCfg aok s).sleeps⟩
      else
        ⟨(_get_sqlite_conn fe tid
            (tryClickhouseWithRetryCfg aok s).state).result.map
              (fun c => (c, true)),
         (_get_sqlite_conn fe tid (tryClickhouseWithRetryCfg aok s).state).state,
         locks + 1, (tryClickhouseWithRetryCfg aok s).attempts,
         (tryClickhouseWithRetryCfg aok s).sleeps⟩ := by
  simp [getConnectionTail, h]

/-- C3: with the primary available and a cached client `c`, a failed
heartbeat means the same `get_connection` call never returns `c`: every
successful return is either the freshly reconnected primary client
(cached, availability back to available, and distinct from `c`) or a
SQLite fallback pair; and only a successful heartbeat returns the
previously cached client. -/
theorem heartbeatFailNoStale (s : ManagerState) (c : Nat)
    (h1 : s.chAvailable = some true) (h2 : s.chClient = some c)
    (h3 : c < s.nextConnId) (aok : Nat → Bool) (fe : Bool) (tid : Nat) :
    (∀ p : Nat × Bool,
      (get_connection false aok fe tid s).result = .ok p →
      (p.2 = false ∧ p.1 ≠ c ∧
        (get_connection false aok fe tid s).state.chClient = some p.1 ∧
        (get_connection false aok fe tid s).state.chAvailable = some true) ∨
      p.2 = true) ∧
    (get_connection true aok fe tid s).result = .ok (c, false) := by
  constructor
  · have hgc : get_connection false aok fe tid s =
        getConnectionTail aok fe tid
          { s with chClient := none, chAvailable := none } 1 := by
      simp [get_connection, h1, h2]
    rw [hgc, getConnectionTail_unknown aok fe tid _ 1 rfl]
    rcases tryRetryCfg_cases aok
        { s with chClient := none, chAvailable := none } with
      ⟨hok, hst⟩ | ⟨hok, hst⟩
    · intro p hp
      right
      simp only [hok, Bool.false_eq_true, if_false] at hp
      rcases hq : (_get_sqlite_conn fe tid
          (tryClickhouseWithRetryCfg aok
            { s with chClient := none, chAvailable := none }).state).result with
        e | cc
      · rw [hq] at hp
        simp [Except.map] at hp
      · rw [hq] at hp
        simp [Except.map] at hp
        rw [← hp]
    · intro p hp
      left
      simp only [hok, if_true] at hp ⊢
      rw [hst] at hp ⊢
      simp only [Except.ok.injEq] at hp
      subst hp
      refine ⟨rfl, ?_, by simp, rfl⟩
      simp only []
      show s.nextConnId ≠ c
      omega
  · simp [get_connection, h1, h2]

/-- Witness for C3 at `availState` (client id 0, every reconnect attempt
failing): a successful heartbeat returns the cached client `(0, false)`,
and with a failed heartbeat the call returns the fallback pair
`(1, true)`, not the dead client. -/
theorem heartbeatFailNoStale_witness :
    (availState.chAvailable = some true ∧ availState.chClient = some 0 ∧
     0 < availState.nextConnId) ∧
    (get_connection true (fun _ => false) true 7 availState).result
      = .ok (0, false) ∧
    (get_connection false (fun _ => false) true 7 availState).result
      = .ok (1, true) := by
  refine ⟨⟨rfl, rfl, by decide⟩,
    (heartbeatFailNoStale availState 0 rfl rfl (by decide)
      (fun _ => false) true 7).2, ?_⟩
  simp [get_connection, getConnectionTail, availState, initState,
    tryClickhouseWithRetryCfg, tryClickhouseWithRetry, CH_MAX_RETRIES,
    chRetryLoop, _get_sqlite_conn, Except.map]

/-
The derived-value (date range) cache.
-/

/-- A falsy cached value never produces a cache hit: the fetch function
is invoked. -/
theorem cacheFalsyAlwaysFetch (s : ManagerState)
    (h : s.dateRangeCache.truthy = false) (now : ℚ)
    (fetch : Except Unit PyVal) :
    (get_date_range_cached s now fetch).fetchCalls = 1 := by
  cases fetch <;> simp [get_date_range_cached, h]

/-- C10: when the fetch function returns a falsy value (Python `None` or
an empty tuple) on a cache miss, that value is stored with the current
timestamp, yet every subsequent call invokes the fetch function again —
at any time, however recent the entry — because the cache-hit test of
line 77 requires the stored value to be truthy. -/
theorem falsyNeverServed (s : ManagerState) (v : PyVal) (now : ℚ)
    (hv : v.truthy = false)
    (hmiss : ¬(s.dateRangeCache.truthy = true ∧
               now - s.dateRangeTs < s.dateRangeTtl)) :
    (get_date_range_cached s now (.ok v)).result = .ok v ∧
    (get_date_range_cached s now (.ok v)).fetchCalls = 1 ∧
    (get_date_range_cached s now (.ok v)).state.dateRangeCache = v ∧
    (get_date_range_cached s now (.ok v)).state.dateRangeTs = now ∧
    (∀ (now2 : ℚ) (fetch2 : Except Unit PyVal),
       (get_date_range_cached (get_date_range_cached s now (.ok v)).state
         now2 fetch2).fetchCalls = 1) := by
  have he : get_date_range_cached s now (.ok v) =
      ⟨.ok v, { s with dateRangeCache := v, dateRangeTs := now }, 1⟩ := by
    simp [get_date_range_cached, hmiss]
  rw [he]
  exact ⟨rfl, rfl, rfl, rfl, fun now2 fetch2 =>
    cacheFalsyAlwaysFetch _ hv now2 fetch2⟩

/-- Witness for C10: a fetch returning `None` on the fresh manager is
stored but the next call, 30 seconds later and well within the 60-second
TTL, fetches again. -/
theorem falsyNeverServed_witness :
    (PyVal.pyNone.truthy = false ∧
     ¬(initState.dateRangeCache.truthy = true ∧
       (0 : ℚ) - initState.dateRangeTs < initState.dateRangeTtl)) ∧
    (get_date_range_cached initState 0 (.ok .pyNone)).state.dateRangeCache
      = .pyNone ∧
    (get_date_range_cached
      (get_date_range_cached initState 0 (.ok .pyNone)).state 30
      (.ok .pyNone)).fetchCalls = 1 := by
  have hmiss : ¬(initState.dateRangeCache.truthy = true ∧
      (0 : ℚ) - initState.dateRangeTs < initState.dateRangeTtl) := by
    simp [initState, PyVal.truthy]
  obtain ⟨_, _, h3, _, h5⟩ := falsyNeverServed initState .pyNone 0 rfl hmiss
  exact ⟨⟨rfl, hmiss⟩, h3, h5 30 (.ok .pyNone)⟩

/-- Counterexample to C5 as stated: for the fetch function that returns
the falsy value `None`, two calls 30 seconds apart (well under the
60-second TTL) each invoke the fetch function — two invocations, not at
most one — and the second call does not serve the stored entry. -/
theorem cacheTTL_cex :
    (0 : ℚ) ≤ 30 - 0 ∧ (30 : ℚ) - 0 < 60 ∧ initState.dateRangeTtl = 60 ∧
    (get_date_range_cached initState 0 (.ok .pyNone)).fetchCalls = 1 ∧
    (get_date_range_cached
      (get_date_range_cached initState 0 (.ok .pyNone)).state 30
      (.ok .pyNone)).fetchCalls = 1 := by
  refine ⟨by norm_num, by norm_num, rfl, ?_, ?_⟩ <;>
    simp [get_date_range_cached, initState, PyVal.truthy]

/-- C5, amended: for every fetch function whose fetched value is truthy
(a non-empty tuple), a second call less than the TTL after the first
(missing) call serves the stored value without invoking any fetch
function; once the TTL has elapsed the fetch function is invoked again;
and a raising fetch function propagates its exception with the state
unchanged (no entry stored). -/
theorem cacheTTL (s : ManagerState) (now1 now2 : ℚ) (v : PyVal)
    (fetch2 : Except Unit PyVal)
    (hmiss : ¬(s.dateRangeCache.truthy = true ∧
               now1 - s.dateRangeTs < s.dateRangeTtl))
    (hv : v.truthy = true) (hlt : now2 - now1 < s.dateRangeTtl) :
    (get_date_range_cached s now1 (.ok v)).result = .ok v ∧
    (get_date_range_cached s now1 (.ok v)).fetchCalls = 1 ∧
    (get_date_range_cached (get_date_range_cached s now1 (.ok v)).state
       now2 fetch2).result = .ok v ∧
    (get_date_range_cached (get_date_range_cached s now1 (.ok v)).state
       now2 fetch2).fetchCalls = 0 ∧
    (get_date_range_cached (get_date_range_cached s now1 (.ok v)).state
       now2 fetch2).state = (get_date_range_cached s now1 (.ok v)).state ∧
    (∀ (now3 : ℚ) (fetch3 : Except Unit PyVal),
       s.dateRangeTtl ≤ now3 - now1 →
       (get_date_range_cached (get_date_range_cached s now1 (.ok v)).state
          now3 fetch3).fetchCalls = 1) ∧
    ((get_date_range_cached s now1 (.error ())).result = .error () ∧
     (get_date_range_cached s now1 (.error ())).state = s) := by
  have he : get_date_range_cached s now1 (.ok v) =
      ⟨.ok v, { s with dateRangeCache := v, dateRangeTs := now1 }, 1⟩ := by
    simp [get_date_range_cached, hmiss]
  rw [he]
  refine ⟨rfl, rfl, ?_, ?_, ?_, ?_, ?_⟩
  · simp [get_date_range_cached, hv, hlt]
  · simp [get_date_range_cached, hv, hlt]
  · simp [get_date_range_cached, hv, hlt]
  · intro now3 fetch3 hge
    have hm3 : ¬(now3 - now1 < s.dateRangeTtl) := not_lt.mpr hge
    cases fetch3 <;> simp [get_date_range_cached, hv, hm3]
  · simp [get_date_range_cached, hmiss]

/-- Witness for C5 (amended) at the scenario of the spec: the tuple
`("2017-11-01","2017-12-10")` fetched at time 0 is served from the cache
at time 30 without fetching, a call at time 61 fetches again, and a
raising fetch at time 0 propagates with the state unchanged. -/
theorem cacheTTL_witness :
    (¬(initState.dateRangeCache.truthy = true ∧
       (0 : ℚ) - initState.dateRangeTs < initState.dateRangeTtl) ∧
     (PyVal.tup ["2017-11-01", "2017-12-10"]).truthy = true ∧
     (30 : ℚ) - 0 < initState.dateRangeTtl) ∧
    (get_date_range_cached initState 0
      (.ok (.tup ["2017-11-01", "2017-12-10"]))).fetchCalls = 1 ∧
    (get_date_range_cached
      (get_date_range_cached initState 0
        (.ok (.tup ["2017-11-01", "2017-12-10"]))).state 30
      (.ok .pyNone)).result = .ok (.tup ["2017-11-01", "2017-12-10"]) ∧
    (get_date_range_cached
      (get_date_range_cached initState 0
        (.ok (.tup ["2017-11-01", "2017-12-10"]))).state 30
      (.ok .pyNone)).fetchCalls = 0 ∧
    (get_date_range_cached
      (get_date_range_cached initState 0
        (.ok (.tup ["2017-11-01", "2017-12-10"]))).state 61
      (.ok .pyNone)).fetchCalls = 1 ∧
    (get_date_range_cached initState 0
      (.error () : Except Unit PyVal)).result = .error () := by
  have hmiss : ¬(initState.dateRangeCache.truthy = true ∧
      (0 : ℚ) - initState.dateRangeTs < initState.dateRangeTtl) := by
    simp [initState, PyVal.truthy]
  have hlt : (30 : ℚ) - 0 < initState.dateRangeTtl := by
    show (30 : ℚ) - 0 < 60
    norm_num
  obtain ⟨_, h2, h3, h4, _, h6, h7⟩ := cacheTTL initState 0 30
    (.tup ["2017-11-01", "2017-12-10"]) (.ok .pyNone) hmiss rfl hlt
  refine ⟨⟨hmiss, rfl, hlt⟩, h2, h3, h4, ?_, h7.1⟩
  refine h6 61 (.ok .pyNone) ?_
  show initState.dateRangeTtl ≤ 61 - 0
  show (60 : ℚ) ≤ 61 - 0
  norm_num

/-
Per-thread fallback connection isolation.
-/

/-- `GoodIds` only looks at the thread-local map, the client, and the
fresh-id counter. -/
theorem goodIds_of_fields (s s' : ManagerState)
    (h1 : s'.threadLocal = s.threadLocal) (h2 : s'.chClient = s.chClient)
    (h3 : s'.nextConnId = s.nextConnId) (h : GoodIds s) : GoodIds s' := by
  unfold GoodIds at h ⊢
  rw [h1, h2, h3]
  exact h

/-- The fresh-connection case of `_get_sqlite_conn`, characterised. -/
theorem sqliteConnFresh (tid : Nat) (s : ManagerState)
    (hslot : s.threadLocal tid = none) :
    ((_get_sqlite_conn true tid s).state.threadLocal =
       fun t => if t = tid then some s.nextConnId else s.threadLocal t) ∧
    (_get_sqlite_conn true tid s).state.nextConnId = s.nextConnId + 1 ∧
    (_get_sqlite_conn true tid s).state.chClient = s.chClient ∧
    (_get_sqlite_conn true tid s).state.sqliteConns
      = s.sqliteConns ++ [s.nextConnId] ∧
    (_get_sqlite_conn true tid s).result = .ok s.nextConnId := by
  by_cases hbt : s.backendType = some Backend.sqlite <;>
    simp [_get_sqlite_conn, hslot, hbt]

/-- A successful `_get_sqlite_conn` returns either the id already cached
for the thread, or (slot empty) the fresh id. -/
theorem sqliteResultCases (fe : Bool) (tid : Nat) (s : ManagerState)
    (c : Nat) (h : (_get_sqlite_conn fe tid s).result = .ok c) :
    s.threadLocal tid = some c ∨
    (s.threadLocal tid = none ∧ c = s.nextConnId) := by
  cases hslot : s.threadLocal tid with
  | some c0 =>
      left
      simp [_get_sqlite_conn, hslot] at h
      rw [h]
  | none =>
      right
      cases fe with
      | false => simp [_get_sqlite_conn, hslot] at h
      | true =>
          have := (sqliteConnFresh tid s hslot).2.2.2.2
          rw [this] at h
          simp at h
          exact ⟨rfl, h.symm⟩

/-- After a successful `_get_sqlite_conn`, the calling thread's slot
holds the returned id and no other slot changed. -/
theorem sqliteSlotAfter (fe : Bool) (tid : Nat) (s : ManagerState)
    (c : Nat) (h : (_get_sqlite_conn fe tid s).result = .ok c) :
    (_get_sqlite_conn fe tid s).state.threadLocal tid = some c ∧
    (∀ t, t ≠ tid →
      (_get_sqlite_conn fe tid s).state.threadLocal t = s.threadLocal t) := by
  cases hslot : s.threadLocal tid with
  | some c0 =>
      have hs : (_get_sqlite_conn fe tid s).state = s := by
        simp [_get_sqlite_conn, hslot]
      have hc : c0 = c := by
        simp [_get_sqlite_conn, hslot] at h
        exact h
      rw [hs]
      exact ⟨by rw [hslot, hc], fun t _ => rfl⟩
  | none =>
      cases fe with
      | false => simp [_get_sqlite_conn, hslot] at h
      | true =>
          obtain ⟨htl, -, -, -, hres⟩ := sqliteConnFresh tid s hslot
          rw [hres] at h
          simp at h
          rw [htl]
          constructor
          · simp [← h]
          · intro t ht
            simp [ht]

/-- A cached slot short-circuits `_get_sqlite_conn`. -/
theorem sqliteSlotHit (fe : Bool) (tid : Nat) (s : ManagerState) (c : Nat)
    (hslot : s.threadLocal tid = some c) :
    (_get_sqlite_conn fe tid s).result = .ok c ∧
    (_get_sqlite_conn fe tid s).state = s := by
  simp [_get_sqlite_conn, hslot]

/-- `_get_sqlite_conn` preserves the id invariant. -/
theorem goodIds_sqlite (fe : Bool) (tid : Nat) (s : ManagerState)
    (h : GoodIds s) : GoodIds (_get_sqlite_conn fe tid s).state := by
  obtain ⟨hbound, hinj, hch⟩ := h
  cases hslot : s.threadLocal tid with
  | some c =>
      rw [(sqliteSlotHit fe tid s c hslot).2]
      exact ⟨hbound, hinj, hch⟩
  | none =>
      cases fe with
      | false =>
          have hs : (_get_sqlite_conn false tid s).state = s := by
            simp [_get_sqlite_conn, hslot]
          rw [hs]
          exact ⟨hbound, hinj, hch⟩
      | true =>
          obtain ⟨htl, hnext, hcc, -, -⟩ := sqliteConnFresh tid s hslot
          refine ⟨?_, ?_, ?_⟩
          · intro t c hc
            rw [htl] at hc
            rw [hnext]
            by_cases ht : t = tid
            · simp [ht] at hc
              omega
            · simp [ht] at hc
              exact Nat.lt_trans (hbound t c hc) (Nat.lt_succ_self _)
          · intro t t' c hc hc'
            rw [htl] at hc hc'
            by_cases ht : t = tid <;> by_cases ht' : t' = tid
            · rw [ht, ht']
            · simp [ht, ht'] at hc hc'
              exact absurd (hbound t' c hc') (by omega)
            · simp [ht, ht'] at hc hc'
              exact absurd (hbound t c hc) (by omega)
            · simp [ht, ht'] at hc hc'
              exact hinj t t' c hc hc'
          · intro c hc
            rw [hcc] at hc
            rw [hnext]
            exact Nat.lt_trans (hch c hc) (Nat.lt_succ_self _)

/-- The retry routine preserves the id invariant. -/
theorem goodIds_retry (aok : Nat → Bool) (s : ManagerState)
    (h : GoodIds s) : GoodIds (tryClickhouseWithRetryCfg aok s).state := by
  obtain ⟨hbound, hinj, hch⟩ := h
  rcases tryRetryCfg_cases aok s with ⟨-, hst⟩ | ⟨-, hst⟩ <;> rw [hst]
  · exact ⟨hbound, hinj, hch⟩
  · refine ⟨?_, ?_, ?_⟩
    · intro t c hc
      exact Nat.lt_trans (hbound t c hc) (Nat.lt_succ_self _)
    · exact hinj
    · intro c hc
      simp at hc
      show c < s.nextConnId + 1
      omega

/-- `getConnectionTail` preserves the id invariant. -/
theorem goodIds_tail (aok : Nat → Bool) (fe : Bool) (tid : Nat)
    (s : ManagerState) (locks : Nat) (h : GoodIds s) :
    GoodIds (getConnectionTail aok fe tid s locks).state := by
  cases hav : s.chAvailable with
  | none =>
      rw [getConnectionTail_unknown aok fe tid s locks hav]
      by_cases hok : (tryClickhouseWithRetryCfg aok s).ok = true
      · rw [if_pos hok]
        exact goodIds_retry aok s h
      · rw [if_neg hok]
        exact goodIds_sqlite fe tid _ (goodIds_retry aok s h)
  | some b =>
      have he : (getConnectionTail aok fe tid s locks).state =
          (_get_sqlite_conn fe tid s).state := by
        simp [getConnectionTail, hav]
      rw [he]
      exact goodIds_sqlite fe tid s h

/-- `get_connection` preserves the id invariant. -/
theorem goodIds_gc (hb : Bool) (aok : Nat → Bool) (fe : Bool) (tid : Nat)
    (s : ManagerState) (h : GoodIds s) :
    GoodIds (get_connection hb aok fe tid s).state := by
  by_cases hc : s.chAvailable = some true ∧ s.chClient ≠ none
  · cases hb with
    | true =>
        have hs : (get_connection true aok fe tid s).state = s := by
          simp [get_connection, hc]
        rw [hs]
        exact h
    | false =>
        have he : get_connection false aok fe tid s =
            getConnectionTail aok fe tid
              { s with chClient := none, chAvailable := none } 1 := by
          simp [get_connection, hc, hc.1]
        rw [he]
        exact goodIds_tail aok fe tid _ 1 ⟨h.1, h.2.1, by simp⟩
  · have he : get_connection hb aok fe tid s =
        getConnectionTail aok fe tid s 0 := by
      simp [get_connection, hc]
    rw [he]
    exact goodIds_tail aok fe tid s 0 h

/-- `close_all` preserves the id invariant. -/
theorem goodIds_close (s : ManagerState) (h : GoodIds s) :
    GoodIds (close_all s) := by
  have h1 : (close_all s).threadLocal = s.threadLocal := by
    cases hcc : s.chClient <;> simp [close_all, hcc]
  have h2 : (close_all s).nextConnId = s.nextConnId := by
    cases hcc : s.chClient <;> simp [close_all, hcc]
  have h3 : (close_all s).chClient = none := by
    cases hcc : s.chClient <;> simp [close_all, hcc]
  refine ⟨?_, ?_, ?_⟩
  · rw [h1, h2]
    exact h.1
  · rw [h1]
    exact h.2.1
  · rw [h3]
    simp

/-- `get_sqlite_cursor` only changes the state through
`_get_sqlite_conn`. -/
theorem cursorState (fe : Bool) (tid : Nat) (bf : Bool) (s : ManagerState) :
    (get_sqlite_cursor fe tid bf s).state = (_get_sqlite_conn fe tid s).state := by
  rcases hc : _get_sqlite_conn fe tid s with ⟨r, st⟩
  cases r <;> simp [get_sqlite_cursor, hc]

/-- `get_date_range_cached` never touches the connection fields. -/
theorem cacheStateFrame (s : ManagerState) (now : ℚ)
    (fetch : Except Unit PyVal) :
    (get_date_range_cached s now fetch).state.threadLocal = s.threadLocal ∧
    (get_date_range_cached s now fetch).state.chClient = s.chClient ∧
    (get_date_range_cached s now fetch).state.nextConnId = s.nextConnId := by
  unfold get_date_range_cached
  split
  · exact ⟨rfl, rfl, rfl⟩
  · cases fetch <;> simp

/-- C6: connection-id ownership.  The invariant `GoodIds` holds
initially and is preserved by every operation of the manager; under it,
two distinct threads acquiring fallback connections one after the other
never receive the same connection id, and a thread that has acquired a
connection receives that same connection on every later
`_get_sqlite_conn` call. -/
theorem fallbackIsolation :
    GoodIds initState ∧
    (∀ (hb : Bool) (aok : Nat → Bool) (fe : Bool) (tid : Nat)
       (s : ManagerState), GoodIds s →
       GoodIds (get_connection hb aok fe tid s).state) ∧
    (∀ (fe : Bool) (tid : Nat) (s : ManagerState), GoodIds s →
       GoodIds (_get_sqlite_conn fe tid s).state) ∧
    (∀ s : ManagerState, GoodIds s → GoodIds (close_all s)) ∧
    (∀ (fe : Bool) (tid : Nat) (bf : Bool) (s : ManagerState), GoodIds s →
       GoodIds (get_sqlite_cursor fe tid bf s).state) ∧
    (∀ (s : ManagerState) (now : ℚ) (fetch : Except Unit PyVal), GoodIds s →
       GoodIds (get_date_range_cached s now fetch).state) ∧
    (∀ (s : ManagerState) (fe1 fe2 : Bool) (t1 t2 c1 c2 : Nat), GoodIds s →
       t1 ≠ t2 →
       (_get_sqlite_conn fe1 t1 s).result = .ok c1 →
       (_get_sqlite_conn fe2 t2 (_get_sqlite_conn fe1 t1 s).state).result
         = .ok c2 →
       c1 ≠ c2) ∧
    (∀ (s : ManagerState) (fe1 fe2 : Bool) (t c1 : Nat),
       (_get_sqlite_conn fe1 t s).result = .ok c1 →
       (_get_sqlite_conn fe2 t (_get_sqlite_conn fe1 t s).state).result
         = .ok c1) := by
  refine ⟨⟨fun t c hc => by simp [initState] at hc,
      fun t t' c hc _ => by simp [initState] at hc,
      fun c hc => by simp [initState] at hc⟩,
    goodIds_gc, goodIds_sqlite, goodIds_close,
    fun fe tid bf s h => by rw [cursorState]; exact goodIds_sqlite fe tid s h,
    fun s now fetch h => by
      obtain ⟨f1, f2, f3⟩ := cacheStateFrame s now fetch
      exact goodIds_of_fields s _ f1 f2 f3 h,
    ?_, ?_⟩
  · intro s fe1 fe2 t1 t2 c1 c2 hg hne h1 h2
    have hg1 : GoodIds (_get_sqlite_conn fe1 t1 s).state :=
      goodIds_sqlite fe1 t1 s hg
    have hslot1 : (_get_sqlite_conn fe1 t1 s).state.threadLocal t1 = some c1 :=
      (sqliteSlotAfter fe1 t1 s c1 h1).1
    rcases sqliteResultCases fe2 t2 _ c2 h2 with hs2 | ⟨-, hs2⟩
    · intro heq
      exact hne (hg1.2.1 t1 t2 c1 hslot1 (heq ▸ hs2))
    · have := hg1.1 t1 c1 hslot1
      omega
  · intro s fe1 fe2 t c1 h1
    exact (sqliteSlotHit fe2 t _ c1 (sqliteSlotAfter fe1 t s c1 h1).1).1

/-- Witness for C6: on the fresh manager, thread 0 receives connection
0, thread 1 then receives connection 1 (distinct), and a repeat call by
thread 0 returns connection 0 again. -/
theorem fallbackIsolation_witness :
    (_get_sqlite_conn true 0 initState).result = .ok 0 ∧
    (_get_sqlite_conn true 1 (_get_sqlite_conn true 0 initState).state).result
      = .ok 1 ∧
    (0 : Nat) ≠ 1 ∧
    (_get_sqlite_conn true 0 (_get_sqlite_conn true 0 initState).state).result
      = .ok 0 := by
  have hr1 : (_get_sqlite_conn true 0 initState).result = .ok 0 := by
    simp [_get_sqlite_conn, initState]
  have hr2 : (_get_sqlite_conn true 1
      (_get_sqlite_conn true 0 initState).state).result = .ok 1 := by
    simp [_get_sqlite_conn, initState]
  exact ⟨hr1, hr2,
    fallbackIsolation.2.2.2.2.2.2.1 initState true true 0 1 0 1
      fallbackIsolation.1 (by decide) hr1 hr2,
    fallbackIsolation.2.2.2.2.2.2.2 initState true true 0 0 hr1⟩

/-
Shutdown.
-/

/-- Counterexample to C7 as stated: `close_all` does not reset all of
the manager's state to its initial value — on a state with a populated
date-range cache, a cached per-thread connection and a backend tag, all
three survive `close_all`, while the initial state has none of them. -/
theorem closeAll_cex :
    (close_all dirtyState).dateRangeCache = .tup ["2017-11-01", "2017-12-10"] ∧
    (close_all dirtyState).threadLocal 0 = some 0 ∧
    (close_all dirtyState).backendType = some .clickhouse ∧
    initState.dateRangeCache = .pyNone ∧
    initState.threadLocal 0 = none ∧
    initState.backendType = none ∧
    (close_all dirtyState).dateRangeCache ≠ initState.dateRangeCache := by
  refine ⟨?_, ?_, ?_, rfl, rfl, rfl, ?_⟩ <;>
    simp [close_all, dirtyState, initState]

/-- C7, amended: `close_all` marks every tracked fallback connection and
the primary client (when present) closed, clears the tracked set, drops
the client, resets availability to unknown and clears the initialized
flag, and is idempotent — but it does not itself reset the per-thread
connection slots, the backend tag, or the date-range cache. -/
theorem closeAllSpec (s : ManagerState) :
    (∀ c ∈ s.sqliteConns, c ∈ (close_all s).closedConns) ∧
    (close_all s).sqliteConns = [] ∧
    (∀ c, s.chClient = some c → c ∈ (close_all s).closedConns) ∧
    (close_all s).chClient = none ∧
    (close_all s).chAvailable = none ∧
    (close_all s).initialized = false ∧
    (close_all s).threadLocal = s.threadLocal ∧
    (close_all s).dateRangeCache = s.dateRangeCache ∧
    (close_all s).backendType = s.backendType ∧
    close_all (close_all s) = close_all s := by
  cases hcc : s.chClient with
  | none =>
      refine ⟨fun c hcm => ?_, by simp [close_all, hcc], fun c hc => ?_,
        by simp [close_all, hcc], by simp [close_all, hcc],
        by simp [close_all, hcc], by simp [close_all, hcc],
        by simp [close_all, hcc], by simp [close_all, hcc],
        by simp [close_all, hcc]⟩
      · simp [close_all, hcc, hcm]
      · simp at hc
  | some c0 =>
      refine ⟨fun c hcm => ?_, by simp [close_all, hcc], fun c hc => ?_,
        by simp [close_all, hcc], by simp [close_all, hcc],
        by simp [close_all, hcc], by simp [close_all, hcc],
        by simp [close_all, hcc], by simp [close_all, hcc],
        by simp [close_all, hcc]⟩
      · simp [close_all, hcc, hcm]
      · simp at hc
        simp [close_all, hcc, hc]

/-- Witness for C7 (amended) on `dirtyState`: the tracked connection 0
and the client 1 are both marked closed, the tracked set is empty, and a
second `close_all` changes nothing. -/
theorem closeAllSpec_witness :
    (0 ∈ dirtyState.sqliteConns ∧ dirtyState.chClient = some 1) ∧
    0 ∈ (close_all dirtyState).closedConns ∧
    1 ∈ (close_all dirtyState).closedConns ∧
    (close_all dirtyState).sqliteConns = [] ∧
    (close_all dirtyState).chAvailable = none ∧
    close_all (close_all dirtyState) = close_all dirtyState := by
  obtain ⟨h1, h2, h3, -, h5, -, -, -, -, h10⟩ := closeAllSpec dirtyState
  exact ⟨⟨by simp [dirtyState, initState], rfl⟩,
    h1 0 (by simp [dirtyState, initState]), h3 1 rfl, h2, h5, h10⟩

/-
Missing storage file.
-/

/-- C8: for a thread with no cached fallback connection, acquiring one
raises `BackendUnavailable` exactly when the SQLite database file does
not exist, and a raising call leaves the whole manager state — in
particular the thread-local slot and the tracked set — unchanged. -/
theorem sqliteMissingFile (s : ManagerState) (tid : Nat)
    (h : s.threadLocal tid = none) (fe : Bool) :
    ((_get_sqlite_conn fe tid s).result = .error .backendUnavailable ↔
      fe = false) ∧
    (_get_sqlite_conn false tid s).state = s := by
  refine ⟨?_, by simp [_get_sqlite_conn, h]⟩
  cases fe with
  | false => simp [_get_sqlite_conn, h]
  | true =>
      rw [(sqliteConnFresh tid s h).2.2.2.2]
      simp

/-- Witness for C8 on the fresh manager: with the file missing the call
raises and the state is untouched; with the file present it returns a
connection. -/
theorem sqliteMissingFile_witness :
    initState.threadLocal 0 = none ∧
    (_get_sqlite_conn false 0 initState).result
      = .error .backendUnavailable ∧
    (_get_sqlite_conn false 0 initState).state = initState ∧
    ¬((_get_sqlite_conn true 0 initState).result
        = .error .backendUnavailable) := by
  obtain ⟨hiff, hst⟩ := sqliteMissingFile initState 0 rfl false
  obtain ⟨hiff', -⟩ := sqliteMissingFile initState 0 rfl true
  exact ⟨rfl, hiff.mpr rfl, hst, fun hc => by simpa using hiff'.mp hc⟩

/-
Scoped cursors.
-/

/-- C9: whenever a cursor is opened (the per-thread connection is
obtainable), `get_sqlite_cursor` closes that cursor on both exit paths —
normal completion and a raising body — propagates the body's outcome,
marks no connection closed, and leaves the per-thread connection cached
so the next call from the same thread gets the very same connection. -/
theorem cursorAlwaysClosed (s : ManagerState) (fe : Bool) (tid : Nat)
    (c : Nat) (bf : Bool)
    (h : (_get_sqlite_conn fe tid s).result = .ok c) :
    (get_sqlite_cursor fe tid bf s).cursorClosed = true ∧
    (get_sqlite_cursor fe tid bf s).result
      = .ok (if bf then .error () else .ok ()) ∧
    (get_sqlite_cursor fe tid bf s).state.closedConns = s.closedConns ∧
    (_get_sqlite_conn fe tid (get_sqlite_cursor fe tid bf s).state).result
      = .ok c := by
  have hstate : (get_sqlite_cursor fe tid bf s).state
      = (_get_sqlite_conn fe tid s).state := cursorState fe tid bf s
  rcases hc : _get_sqlite_conn fe tid s with ⟨r, st⟩
  have hr : r = .ok c := by
    rw [hc] at h
    exact h
  subst hr
  refine ⟨?_, ?_, ?_, ?_⟩
  · simp [get_sqlite_cursor, hc]
  · simp [get_sqlite_cursor, hc]
  · rw [hstate, hc]
    have hf := (sqliteConnFrame fe tid s).2.2.2.2.1
    rw [hc] at hf
    exact hf
  · rw [hstate]
    exact (sqliteSlotHit fe tid _ c (sqliteSlotAfter fe tid s c h).1).1

/-- Witness for C9 on the fresh manager, thread 0: with both a raising
and a normal body the cursor is closed, the raising body's error is
propagated, and the same connection 0 is returned by the next call. -/
theorem cursorAlwaysClosed_witness :
    (_get_sqlite_conn true 0 initState).result = .ok 0 ∧
    (get_sqlite_cursor true 0 true initState).cursorClosed = true ∧
    (get_sqlite_cursor true 0 false initState).cursorClosed = true ∧
    (get_sqlite_cursor true 0 true initState).result = .ok (.error ()) ∧
    (get_sqlite_cursor true 0 false initState).result = .ok (.ok ()) ∧
    (_get_sqlite_conn true 0
      (get_sqlite_cursor true 0 true initState).state).result = .ok 0 := by
  have h : (_get_sqlite_conn true 0 initState).result = .ok 0 := by
    simp [_get_sqlite_conn, initState]
  obtain ⟨a1, a2, -, a4⟩ := cursorAlwaysClosed initState true 0 0 true h
  obtain ⟨b1, b2, -, -⟩ := cursorAlwaysClosed initState true 0 0 false h
  refine ⟨h, a1, b1, ?_, ?_, a4⟩
  · simp [a2]
  · simp [b2]

/-
The interleaved cold-start system.
-/

/-- The initial cold system satisfies the invariant. -/
theorem sysInv_init (n : Nat) : SysInv (sysInit n) := by
  refine ⟨?_, ?_, ?_, ?_, ?_, ?_, ?_⟩ <;> simp [sysInit, SysInv]

/-- Every step of any thread preserves the invariant. -/
theorem sysInv_step (o : Bool) (s : Sys n) (i : Fin n) (h : SysInv s) :
    SysInv ((threadStep o s i).getD s) := by
  obtain ⟨hA, hB, hC, hD, hE, hF, hG⟩ := h
  rcases hpc : s.pcs i with _ | _ | _ | _ | b
  · -- pcs i = start
    have hlocki : s.lock ≠ some i := by
      intro hl
      rcases hA i hl with hc | hc <;> rw [hpc] at hc <;> simp at hc
    rcases hav : s.avail with _ | b'
    · -- avail unknown: move to acquire
      have hstep : (threadStep o s i).getD s =
          { s with pcs := Function.update s.pcs i .acquire } := by
        simp [threadStep, hpc, hav]
      rw [hstep]
      refine ⟨?_, ?_, ?_, hD, hE, ?_, ?_⟩
      · intro j hl
        have hji : j ≠ i := by
          rintro rfl
          exact hlocki hl
        simpa [Function.update_apply, hji] using hA j hl
      · intro j hj
        by_cases hji : j = i
        · subst hji
          simp [Function.update_apply] at hj
        · simp [Function.update_apply, hji] at hj
          exact hB j hj
      · rintro ⟨j, hj⟩
        by_cases hji : j = i
        · subst hji
          simp [Function.update_apply] at hj
        · simp [Function.update_apply, hji] at hj
          exact hC ⟨j, hj⟩
      · intro h0 j b
        by_cases hji : j = i
        · subst hji
          simp [Function.update_apply]
        · simp [Function.update_apply, hji]
          exact hF h0 j b
      · intro j k hj hk
        by_cases hji : j = i
        · subst hji
          simp [Function.update_apply] at hj
        · by_cases hki : k = i
          · subst hki
            simp [Function.update_apply] at hk
          · simp [Function.update_apply, hji] at hj
            simp [Function.update_apply, hki] at hk
            exact hG j k hj hk
    · -- avail decided: fall back at once
      have hstep : (threadStep o s i).getD s =
          { s with pcs := Function.update s.pcs i (.finished false) } := by
        simp [threadStep, hpc, hav]
      rw [hstep]
      refine ⟨?_, ?_, ?_, hD, hE, ?_, ?_⟩
      · intro j hl
        have hji : j ≠ i := by
          rintro rfl
          exact hlocki hl
        simpa [Function.update_apply, hji] using hA j hl
      · intro j hj
        by_cases hji : j = i
        · subst hji
          simp [Function.update_apply] at hj
        · simp [Function.update_apply, hji] at hj
          exact hB j hj
      · rintro ⟨j, hj⟩
        by_cases hji : j = i
        · subst hji
          simp [Function.update_apply] at hj
        · simp [Function.update_apply, hji] at hj
          exact hC ⟨j, hj⟩
      · intro h0
        have := hD.mpr h0
        rw [hav] at this
        simp at this
      · intro j k hj hk
        by_cases hji : j = i
        · subst hji
          simp [Function.update_apply] at hj
        · by_cases hki : k = i
          · subst hki
            simp [Function.update_apply] at hk
          · simp [Function.update_apply, hji] at hj
            simp [Function.update_apply, hki] at hk
            exact hG j k hj hk
  · -- pcs i = acquire
    rcases hlk : s.lock with _ | k
    · -- lock free: take it, move to check
      have hstep : (threadStep o s i).getD s =
          { s with lock := some i, pcs := Function.update s.pcs i .check } := by
        simp [threadStep, hpc, hlk]
      rw [hstep]
      refine ⟨?_, ?_, ?_, hD, hE, ?_, ?_⟩
      · intro j hl
        have hji : i = j := by
          simpa using hl
        subst hji
        simp [Function.update_apply]
      · intro j hj
        by_cases hji : j = i
        · subst hji
          rfl
        · simp [Function.update_apply, hji] at hj
          have := hB j hj
          rw [hlk] at this
          simp at this
      · rintro ⟨j, hj⟩
        by_cases hji : j = i
        · subst hji
          simp [Function.update_apply] at hj
        · simp [Function.update_apply, hji] at hj
          have := hB j (Or.inr hj)
          rw [hlk] at this
          simp at this
      · intro h0 j b
        by_cases hji : j = i
        · subst hji
          simp [Function.update_apply]
        · simp [Function.update_apply, hji]
          exact hF h0 j b
      · intro j k hj hk
        by_cases hji : j = i
        · subst hji
          simp [Function.update_apply] at hj
        · by_cases hki : k = i
          · subst hki
            simp [Function.update_apply] at hk
          · simp [Function.update_apply, hji] at hj
            simp [Function.update_apply, hki] at hk
            exact hG j k hj hk
    · -- lock held: blocked, no step
      have hstep : (threadStep o s i).getD s = s := by
        simp [threadStep, hpc, hlk]
      rw [hstep]
      exact ⟨hA, hB, hC, hD, hE, hF, hG⟩
  · -- pcs i = check
    by_cases hlk : s.lock = some i
    · rcases hav : s.avail with _ | b'
      · -- double check passes: go to attempt
        have hstep : (threadStep o s i).getD s =
            { s with pcs := Function.update s.pcs i .attempt } := by
          simp [threadStep, hpc, hlk, hav]
        rw [hstep]
        refine ⟨?_, ?_, ?_, hD, hE, ?_, ?_⟩
        · intro j hl
          have hji : j = i := by
            rw [hlk] at hl
            simpa [eq_comm] using hl
          subst hji
          simp [Function.update_apply]
        · intro j hj
          by_cases hji : j = i
          · subst hji
            exact hlk
          · simp [Function.update_apply, hji] at hj
            exact hB j hj
        · intro _
          exact hav
        · intro h0 j b
          by_cases hji : j = i
          · subst hji
            simp [Function.update_apply]
          · simp [Function.update_apply, hji]
            exact hF h0 j b
        · intro j k hj hk
          by_cases hji : j = i
          · subst hji
            simp [Function.update_apply] at hj
          · by_cases hki : k = i
            · subst hki
              simp [Function.update_apply] at hk
            · simp [Function.update_apply, hji] at hj
              simp [Function.update_apply, hki] at hk
              exact hG j k hj hk
      · -- double check fails: release lock, fall back
        have hstep : (threadStep o s i).getD s =
            { s with lock := none,
                     pcs := Function.update s.pcs i (.finished false) } := by
          simp [threadStep, hpc, hlk, hav]
        rw [hstep]
        refine ⟨?_, ?_, ?_, hD, hE, ?_, ?_⟩
        · intro j hl
          simp at hl
        · intro j hj
          by_cases hji : j = i
          · subst hji
            simp [Function.update_apply] at hj
          · simp [Function.update_apply, hji] at hj
            have := hB j hj
            rw [hlk] at this
            simp [eq_comm] at this
            exact absurd this.symm hji
        · rintro ⟨j, hj⟩
          by_cases hji : j = i
          · subst hji
            simp [Function.update_apply] at hj
          · simp [Function.update_apply, hji] at hj
            have := hB j (Or.inr hj)
            rw [hlk] at this
            simp at this
            exact absurd this.symm hji
        · intro h0
          have := hD.mpr h0
          rw [hav] at this
          simp at this
        · intro j k hj hk
          by_cases hji : j = i
          · subst hji
            simp [Function.update_apply] at hj
          · by_cases hki : k = i
            · subst hki
              simp [Function.update_apply] at hk
            · simp [Function.update_apply, hji] at hj
              simp [Function.update_apply, hki] at hk
              exact hG j k hj hk
    · have hstep : (threadStep o s i).getD s = s := by
        simp [threadStep, hpc, hlk]
      rw [hstep]
      exact ⟨hA, hB, hC, hD, hE, hF, hG⟩
  · -- pcs i = attempt
    by_cases hlk : s.lock = some i
    · have havail : s.avail = none := hC ⟨i, hpc⟩
      have hrun0 : s.attemptsRun = 0 := hD.mp havail
      have hstep : (threadStep o s i).getD s =
          { s with avail := some o, attemptsRun := s.attemptsRun + 1,
                   lock := none,
                   pcs := Function.update s.pcs i (.finished o) } := by
        simp [threadStep, hpc, hlk]
      rw [hstep]
      refine ⟨?_, ?_, ?_, ?_, ?_, ?_, ?_⟩
      · intro j hl
        simp at hl
      · intro j hj
        by_cases hji : j = i
        · subst hji
          simp [Function.update_apply] at hj
        · simp [Function.update_apply, hji] at hj
          have := hB j hj
          rw [hlk] at this
          simp at this
          exact absurd this.symm hji
      · rintro ⟨j, hj⟩
        by_cases hji : j = i
        · subst hji
          simp [Function.update_apply] at hj
        · simp [Function.update_apply, hji] at hj
          have := hB j (Or.inr hj)
          rw [hlk] at this
          simp at this
          exact absurd this.symm hji
      · simp
      · show s.attemptsRun + 1 ≤ 1
        omega
      · intro h0
        simp at h0
      · intro j k hj hk
        by_cases hji : j = i <;> by_cases hki : k = i
        · rw [hji, hki]
        · subst hji
          simp [Function.update_apply, hki] at hk
          exact absurd hk (hF hrun0 k true)
        · subst hki
          simp [Function.update_apply, hji] at hj
          exact absurd hj (hF hrun0 j true)
        · simp [Function.update_apply, hji] at hj
          exact absurd hj (hF hrun0 j true)
    · have hstep : (threadStep o s i).getD s = s := by
        simp [threadStep, hpc, hlk]
      rw [hstep]
      exact ⟨hA, hB, hC, hD, hE, hF, hG⟩
  · -- pcs i = finished b: no step
    have hstep : (threadStep o s i).getD s = s := by
      simp [threadStep, hpc]
    rw [hstep]
    exact ⟨hA, hB, hC, hD, hE, hF, hG⟩

/-- The invariant holds after any schedule from any invariant state. -/
theorem sysInv_run (o : Bool) (sched : List (Fin n)) :
    ∀ s : Sys n, SysInv s → SysInv (sysRun o s sched) := by
  induction sched with
  | nil => exact fun s h => h
  | cons i rest ih =>
      intro s h
      exact ih _ (sysInv_step o s i h)

/-- Counterexample to C4 as stated: in the two-thread cold start with
every attempt failing, after thread 0 reaches the double check (holding
the reconnect lock) and thread 1 passes the availability test, thread 1
is blocked on the reconnect lock — its only step is disabled — and it is
not yet finished; only after thread 0's attempt completes does thread 1
proceed and receive the fallback.  Concurrent callers do block on the
lock. -/
theorem singleReconnect_cex :
    Blocked (sysRun false (sysInit 2) [0, 0, 1]) 1 ∧
    (threadStep false (sysRun false (sysInit 2) [0, 0, 1]) 1).isNone
      = true ∧
    (sysRun false (sysInit 2) [0, 0, 1]).pcs 1 ≠ .finished false ∧
    (sysRun false (sysInit 2) [0, 0, 1, 0, 0, 1, 1]).pcs 1
      = .finished false ∧
    (sysRun false (sysInit 2) [0, 0, 1, 0, 0, 1, 1]).attemptsRun = 1 := by
  refine ⟨⟨?_, ?_, ?_⟩, ?_, ?_, ?_, ?_⟩ <;> decide

/-- C4, amended: under any interleaving of `n` cold-start
`get_connection` callers, the reconnect attempt sequence runs at most
once; when every thread has finished (and there is at least one), it ran
exactly once; and at most one thread receives the primary client — every
other thread finishes with the fallback (though a thread that reaches
the lock while the attempt is in flight waits for it, proceeding only
once the attempt is over). -/
theorem singleReconnect (n : Nat) (o : Bool) (sched : List (Fin n)) :
    (sysRun o (sysInit n) sched).attemptsRun ≤ 1 ∧
    ((∀ i, ∃ b, (sysRun o (sysInit n) sched).pcs i = .finished b) →
      0 < n → (sysRun o (sysInit n) sched).attemptsRun = 1) ∧
    (∀ i j, (sysRun o (sysInit n) sched).pcs i = .finished true →
      (sysRun o (sysInit n) sched).pcs j = .finished true → i = j) := by
  have h := sysInv_run o sched (sysInit n) (sysInv_init n)
  obtain ⟨-, -, -, -, hE, hF, hG⟩ := h
  refine ⟨hE, ?_, hG⟩
  intro hall hn
  rcases Nat.eq_zero_or_pos (sysRun o (sysInit n) sched).attemptsRun with
    h0 | hpos
  · obtain ⟨b, hb⟩ := hall ⟨0, hn⟩
    exact absurd hb (hF h0 ⟨0, hn⟩ b)
  · omega

/-- Witness for C4 (amended): two threads, every attempt failing, on a
complete schedule in which thread 1 had to wait for the lock — the
attempt sequence ran exactly once and both threads finished with the
fallback. -/
theorem singleReconnect_witness :
    (sysRun false (sysInit 2) [0, 0, 1, 0, 0, 1, 1]).pcs 0
      = .finished false ∧
    (sysRun false (sysInit 2) [0, 0, 1, 0, 0, 1, 1]).pcs 1
      = .finished false ∧
    0 < 2 ∧
    (sysRun false (sysInit 2) [0, 0, 1, 0, 0, 1, 1]).attemptsRun = 1 ∧
    (sysRun false (sysInit 2) [0, 0, 1, 0, 0, 1, 1]).attemptsRun ≤ 1 := by
  have hall : ∀ i : Fin 2, ∃ b,
      (sysRun false (sysInit 2) [0, 0, 1, 0, 0, 1, 1]).pcs i
        = .finished b := by decide
  obtain ⟨hE, hOnce, -⟩ := singleReconnect 2 false [0, 0, 1, 0, 0, 1, 1]
  exact ⟨by decide, by decide, by decide, hOnce hall (by decide), hE⟩
